import Mathlib

/-!
# Verification of the temperature-matrix visualisation (`src/main.js`)

Shallow embedding of the data-processing and rendering logic of the
year-by-month temperature matrix.  JavaScript numbers are modelled as
rationals (`ℚ`), JS arrays as Lean lists, and the DOM output of each
drawing function as an explicit record of the attributes it sets.
-/

/-! ## Constants (section 1 of `main.js`) -/

def CELL_WIDTH : ℚ := 100

def CELL_HEIGHT : ℚ := 70

def YEARS_COUNT : ℕ := 10

def MONTHS_COUNT : ℕ := 12

def TEMP_MIN : ℤ := 0

def TEMP_MAX : ℤ := 40

/-! ## Data model

`d3.timeParse("%Y-%m-%d")` produces a JS `Date`; the code only ever uses
`getFullYear()`, `getMonth()` (0-based) and the numeric ordering of dates
(`a.date - b.date`).  We model a parsed date by its components, and its
timestamp ordering by an injective monotone key (valid dates have
`month < 12` and `day < 32`, so the lexicographic (year, month, day)
order agrees with the timestamp order). -/

structure JsDate where
  year : ℕ
  month : ℕ
  day : ℕ
deriving DecidableEq, Repr

/-- Monotone injective key modelling `Date.prototype.getTime` ordering for
valid dates (`month ∈ [0,11]`, `day ∈ [1,31]`). -/
def JsDate.key (d : JsDate) : ℕ :=
  (d.year * 12 + d.month) * 32 + d.day

/-- One parsed CSV row: `{ date, max, min }` as built in `loadData`. -/
structure DailyRecord where
  date : JsDate
  max : ℚ
  min : ℚ
deriving DecidableEq, Repr

/-! ## `d3.max` / `d3.min`

`d3.max(days, d => d.max)` scans the array keeping the largest value seen,
returning `undefined` on an empty array; likewise `d3.min`.  We model the
accessor-mapped list and the scan, with `undefined` as `none`. -/

def d3max (l : List ℚ) : Option ℚ :=
  l.foldl (fun acc v =>
    match acc with
    | none => some v
    | some m => some (Max.max m v)) none

def d3min (l : List ℚ) : Option ℚ :=
  l.foldl (fun acc v =>
    match acc with
    | none => some v
    | some m => some (Min.min m v)) none

/-! ## In-place stable sort (`Array.prototype.sort`)

`days.sort((a, b) => a.date - b.date)` sorts the array **in place** with a
stable sort, ordering by the numeric date difference.  ECMAScript requires
`Array.prototype.sort` to be stable, so it is modelled by a stable
insertion sort keyed on `JsDate.key`: an element is inserted *before* the
first element whose key is not smaller, hence ties keep input order. -/

def insertByDate (a : DailyRecord) : List DailyRecord → List DailyRecord
  | [] => [a]
  | b :: l => if b.date.key < a.date.key then b :: insertByDate a l else a :: b :: l

def sortByDate : List DailyRecord → List DailyRecord
  | [] => []
  | a :: l => insertByDate a (sortByDate l)

/-! ## `summariseMonth` (lines 74–84 of `main.js`)

```js
return {
  monthlyMax: d3.max(days, d => d.max),
  monthlyMin: d3.min(days, d => d.min),
  days: days.sort((a, b) => a.date - b.date),
};
```

The returned `days` is the *same array object* as the argument, now sorted
in place.  `summariseMonth` returns the record; `summariseMonthArrayAfter`
gives the contents of the caller's array after the call (aliased to the
returned `days`). -/

structure MonthSummary where
  monthlyMax : Option ℚ
  monthlyMin : Option ℚ
  days : List DailyRecord
deriving DecidableEq, Repr

def summariseMonth (days : List DailyRecord) : MonthSummary :=
  { monthlyMax := d3max (days.map (·.max))
    monthlyMin := d3min (days.map (·.min))
    days := sortByDate days }

/-- The contents of the array the caller passed, after `summariseMonth`
returns: `Array.prototype.sort` reorders it in place. -/
def summariseMonthArrayAfter (days : List DailyRecord) : List DailyRecord :=
  sortByDate days

/-! ### Lemmas about `d3max` / `d3min` -/

theorem d3max_go (l : List ℚ) (a : ℚ) :
    l.foldl (fun acc v =>
      match acc with
      | none => some v
      | some m => some (Max.max m v)) (some a) = some (l.foldl Max.max a) := by
  induction l generalizing a with
  | nil => rfl
  | cons x xs ih => simpa using ih (Max.max a x)

theorem d3min_go (l : List ℚ) (a : ℚ) :
    l.foldl (fun acc v =>
      match acc with
      | none => some v
      | some m => some (Min.min m v)) (some a) = some (l.foldl Min.min a) := by
  induction l generalizing a with
  | nil => rfl
  | cons x xs ih => simpa using ih (Min.min a x)

theorem d3max_cons (a : ℚ) (l : List ℚ) :
    d3max (a :: l) = some (l.foldl Max.max a) := by
  simp [d3max, d3max_go]

theorem d3min_cons (a : ℚ) (l : List ℚ) :
    d3min (a :: l) = some (l.foldl Min.min a) := by
  simp [d3min, d3min_go]

theorem foldl_max_mem (a : ℚ) (l : List ℚ) :
    l.foldl Max.max a = a ∨ l.foldl Max.max a ∈ l := by
  induction l generalizing a with
  | nil => exact Or.inl rfl
  | cons x xs ih =>
    have hfold : List.foldl Max.max a (x :: xs) = List.foldl Max.max (Max.max a x) xs := rfl
    rcases ih (Max.max a x) with h | h
    · rcases max_choice a x with hc | hc
      · left; rw [hfold, h, hc]
      · right; rw [hfold, h, hc]; exact List.mem_cons_self x xs
    · right; rw [hfold]; exact List.mem_cons_of_mem _ h

theorem le_foldl_max (a : ℚ) (l : List ℚ) :
    a ≤ l.foldl Max.max a ∧ ∀ x ∈ l, x ≤ l.foldl Max.max a := by
  induction l generalizing a with
  | nil => simp
  | cons y ys ih =>
    obtain ⟨h1, h2⟩ := ih (Max.max a y)
    refine ⟨le_trans (le_max_left a y) h1, ?_⟩
    intro x hx
    rcases List.mem_cons.mp hx with rfl | hx
    · exact le_trans (le_max_right a x) h1
    · exact h2 x hx

theorem foldl_min_mem (a : ℚ) (l : List ℚ) :
    l.foldl Min.min a = a ∨ l.foldl Min.min a ∈ l := by
  induction l generalizing a with
  | nil => exact Or.inl rfl
  | cons x xs ih =>
    have hfold : List.foldl Min.min a (x :: xs) = List.foldl Min.min (Min.min a x) xs := rfl
    rcases ih (Min.min a x) with h | h
    · rcases min_choice a x with hc | hc
      · left; rw [hfold, h, hc]
      · right; rw [hfold, h, hc]; exact List.mem_cons_self x xs
    · right; rw [hfold]; exact List.mem_cons_of_mem _ h

theorem foldl_min_le (a : ℚ) (l : List ℚ) :
    l.foldl Min.min a ≤ a ∧ ∀ x ∈ l, l.foldl Min.min a ≤ x := by
  induction l generalizing a with
  | nil => simp
  | cons y ys ih =>
    obtain ⟨h1, h2⟩ := ih (Min.min a y)
    refine ⟨le_trans h1 (min_le_left a y), ?_⟩
    intro x hx
    rcases List.mem_cons.mp hx with rfl | hx
    · exact le_trans h1 (min_le_right a x)
    · exact h2 x hx

/-- On a non-empty list `d3max` returns an element that bounds the list. -/
theorem d3max_spec (l : List ℚ) (h : l ≠ []) :
    ∃ m, d3max l = some m ∧ m ∈ l ∧ ∀ x ∈ l, x ≤ m := by
  match l, h with
  | a :: xs, _ =>
    refine ⟨xs.foldl Max.max a, d3max_cons a xs, ?_, ?_⟩
    · rcases foldl_max_mem a xs with h | h
      · simp [h]
      · exact List.mem_cons_of_mem _ h
    · intro x hx
      obtain ⟨h1, h2⟩ := le_foldl_max a xs
      rcases List.mem_cons.mp hx with rfl | hx
      · exact h1
      · exact h2 x hx

/-- On a non-empty list `d3min` returns an element that lower-bounds the list. -/
theorem d3min_spec (l : List ℚ) (h : l ≠ []) :
    ∃ m, d3min l = some m ∧ m ∈ l ∧ ∀ x ∈ l, m ≤ x := by
  match l, h with
  | a :: xs, _ =>
    refine ⟨xs.foldl Min.min a, d3min_cons a xs, ?_, ?_⟩
    · rcases foldl_min_mem a xs with h | h
      · simp [h]
      · exact List.mem_cons_of_mem _ h
    · intro x hx
      obtain ⟨h1, h2⟩ := foldl_min_le a xs
      rcases List.mem_cons.mp hx with rfl | hx
      · exact h1
      · exact h2 x hx

/-! ### Lemmas about `sortByDate` -/

theorem insertByDate_perm (a : DailyRecord) (l : List DailyRecord) :
    List.Perm (insertByDate a l) (a :: l) := by
  induction l with
  | nil => simp [insertByDate]
  | cons b xs ih =>
    by_cases h : b.date.key < a.date.key
    · simp only [insertByDate, if_pos h]
      exact ((ih.cons b).trans (List.Perm.swap a b xs))
    · simp [insertByDate, if_neg h]

theorem sortByDate_perm (l : List DailyRecord) :
    List.Perm (sortByDate l) l := by
  induction l with
  | nil => simp [sortByDate]
  | cons a xs ih =>
    exact (insertByDate_perm a (sortByDate xs)).trans (ih.cons a)

def DateLe (x y : DailyRecord) : Prop := x.date.key ≤ y.date.key

theorem insertByDate_sorted (a : DailyRecord) (l : List DailyRecord)
    (h : l.Pairwise DateLe) : (insertByDate a l).Pairwise DateLe := by
  induction l with
  | nil => simp [insertByDate, List.Pairwise]
  | cons b xs ih =>
    rcases List.pairwise_cons.mp h with ⟨hb, hxs⟩
    by_cases hk : b.date.key < a.date.key
    · simp only [insertByDate, if_pos hk]
      refine List.pairwise_cons.mpr ⟨?_, ih hxs⟩
      intro y hy
      have := (insertByDate_perm a xs).mem_iff.mp hy
      rcases List.mem_cons.mp this with rfl | hmem
      · exact le_of_lt hk
      · exact hb y hmem
    · simp only [insertByDate, if_neg hk]
      refine List.pairwise_cons.mpr ⟨?_, h⟩
      intro y hy
      rcases List.mem_cons.mp hy with rfl | hmem
      · exact Nat.le_of_not_lt hk
      · exact le_trans (Nat.le_of_not_lt hk) (hb y hmem)

theorem sortByDate_sorted (l : List DailyRecord) :
    (sortByDate l).Pairwise DateLe := by
  induction l with
  | nil => simp [sortByDate, List.Pairwise]
  | cons a xs ih => exact insertByDate_sorted a (sortByDate xs) ih

/-- Stability: inserting into a sorted list keeps the new element before
all equal-key elements already present. -/
theorem filter_insertByDate (a : DailyRecord) (l : List DailyRecord)
    (h : l.Pairwise DateLe) (k : ℕ) :
    (insertByDate a l).filter (fun r => r.date.key == k) =
      if a.date.key = k then a :: l.filter (fun r => r.date.key == k)
      else l.filter (fun r => r.date.key == k) := by
  induction l with
  | nil =>
    by_cases hk : a.date.key = k <;> simp [insertByDate, hk]
  | cons b xs ih =>
    rcases List.pairwise_cons.mp h with ⟨hb, hxs⟩
    by_cases hlt : b.date.key < a.date.key
    · simp only [insertByDate, if_pos hlt]
      by_cases hak : a.date.key = k
      · have hbk : ¬ (b.date.key = k) := by
          intro hbke; rw [hbke, ← hak] at hlt; exact lt_irrefl _ hlt
        simp [List.filter_cons, hbk, ih hxs, hak]
      · simp [List.filter_cons, ih hxs, hak]
    · simp only [insertByDate, if_neg hlt]
      by_cases hak : a.date.key = k
      · by_cases hbk : b.date.key = k
        · simp [List.filter_cons, hak, hbk]
        · -- b's key is ≥ a's key = k but ≠ k, so by sortedness every record
          -- at or after b has key ≠ k
          have hxs_ne : ∀ r ∈ xs, ¬ (r.date.key = k) := by
            intro r hr hrk
            have h1 : b.date.key ≤ r.date.key := hb r hr
            have h2 : b.date.key ≤ k := hrk ▸ h1
            have h3 : a.date.key ≤ b.date.key := Nat.le_of_not_lt hlt
            exact hbk (le_antisymm h2 (hak ▸ h3))
          have : xs.filter (fun r => r.date.key == k) = [] := by
            apply List.filter_eq_nil_iff.mpr
            intro r hr
            simpa using hxs_ne r hr
          simp [List.filter_cons, hak, hbk, this]
      · by_cases hbk : b.date.key = k
        · -- a's key ≤ b's key = k and a's key ≠ k... but then a's key < k;
          -- filter keeps b and the rest unchanged
          simp [List.filter_cons, hak, hbk]
        · simp [List.filter_cons, hak, hbk]

theorem filter_sortByDate (l : List DailyRecord) (k : ℕ) :
    (sortByDate l).filter (fun r => r.date.key == k) =
      l.filter (fun r => r.date.key == k) := by
  induction l with
  | nil => simp [sortByDate]
  | cons a xs ih =>
    rw [sortByDate, filter_insertByDate a (sortByDate xs) (sortByDate_sorted xs) k]
    by_cases hak : a.date.key = k
    · simp [List.filter_cons, hak, ih]
    · simp [List.filter_cons, hak, ih]

/-! ## Claim C1 -/

/-- **C1.** For every non-empty list of daily records, `summariseMonth`
returns `monthlyMax` equal to the true maximum of the records' `max`
values, `monthlyMin` equal to the true minimum of the records' `min`
values, and a `days` list that is a permutation of the input sorted
ascending by date (this holds for every input, hence for any input
permutation). -/
theorem summariseMonth_aggregates (days : List DailyRecord) (h : days ≠ []) :
    (∃ m, (summariseMonth days).monthlyMax = some m ∧
        m ∈ days.map (·.max) ∧ ∀ x ∈ days.map (·.max), x ≤ m) ∧
    (∃ m, (summariseMonth days).monthlyMin = some m ∧
        m ∈ days.map (·.min) ∧ ∀ x ∈ days.map (·.min), m ≤ x) ∧
    List.Perm (summariseMonth days).days days ∧
    (summariseMonth days).days.Pairwise DateLe := by
  have hmap : days.map (·.max) ≠ [] := by
    intro he; exact h (List.map_eq_nil_iff.mp he)
  have hmap' : days.map (·.min) ≠ [] := by
    intro he; exact h (List.map_eq_nil_iff.mp he)
  refine ⟨d3max_spec _ hmap, d3min_spec _ hmap', ?_, ?_⟩
  · exact sortByDate_perm days
  · exact sortByDate_sorted days

/-- Witness for C1 on the spec's own end-to-end example (two January 2023
records, out of order on input). -/
theorem summariseMonth_aggregates_witness :
    ([(⟨⟨2023, 0, 2⟩, 14, 4⟩ : DailyRecord), ⟨⟨2023, 0, 1⟩, 10, 2⟩] ≠ []) ∧
    ((∃ m, (summariseMonth [(⟨⟨2023, 0, 2⟩, 14, 4⟩ : DailyRecord),
        ⟨⟨2023, 0, 1⟩, 10, 2⟩]).monthlyMax = some m ∧
        m ∈ ([(⟨⟨2023, 0, 2⟩, 14, 4⟩ : DailyRecord),
          ⟨⟨2023, 0, 1⟩, 10, 2⟩].map (·.max)) ∧
        ∀ x ∈ ([(⟨⟨2023, 0, 2⟩, 14, 4⟩ : DailyRecord),
          ⟨⟨2023, 0, 1⟩, 10, 2⟩].map (·.max)), x ≤ m) ∧
      (∃ m, (summariseMonth [(⟨⟨2023, 0, 2⟩, 14, 4⟩ : DailyRecord),
        ⟨⟨2023, 0, 1⟩, 10, 2⟩]).monthlyMin = some m ∧
        m ∈ ([(⟨⟨2023, 0, 2⟩, 14, 4⟩ : DailyRecord),
          ⟨⟨2023, 0, 1⟩, 10, 2⟩].map (·.min)) ∧
        ∀ x ∈ ([(⟨⟨2023, 0, 2⟩, 14, 4⟩ : DailyRecord),
          ⟨⟨2023, 0, 1⟩, 10, 2⟩].map (·.min)), m ≤ x) ∧
      List.Perm (summariseMonth [(⟨⟨2023, 0, 2⟩, 14, 4⟩ : DailyRecord),
        ⟨⟨2023, 0, 1⟩, 10, 2⟩]).days
        [(⟨⟨2023, 0, 2⟩, 14, 4⟩ : DailyRecord), ⟨⟨2023, 0, 1⟩, 10, 2⟩] ∧
      (summariseMonth [(⟨⟨2023, 0, 2⟩, 14, 4⟩ : DailyRecord),
        ⟨⟨2023, 0, 1⟩, 10, 2⟩]).days.Pairwise DateLe) :=
  ⟨by decide, summariseMonth_aggregates _ (by decide)⟩

/-! ## Claim C3 -/

/-- **C3 counterexample.** `summariseMonth` does *not* leave the caller's
collection in its original order: `days.sort(...)` sorts the argument array
in place.  With the two records out of date order, the array the caller
passed holds the sorted order after the call, not the original order. -/
theorem summariseMonth_mutates_argument :
    summariseMonthArrayAfter
        [(⟨⟨2023, 0, 2⟩, 14, 4⟩ : DailyRecord), ⟨⟨2023, 0, 1⟩, 10, 2⟩] ≠
      [(⟨⟨2023, 0, 2⟩, 14, 4⟩ : DailyRecord), ⟨⟨2023, 0, 1⟩, 10, 2⟩] := by
  decide

/-- **C3 amended.** `summariseMonth` sorts its argument array in place: the
returned `days` is the same (now sorted) array, so after the call the
caller's collection holds a permutation of its original elements, sorted
ascending by date — not, in general, the original order.  The sort is
stable: for every date key, the records with that key appear in their
original relative order.  (The defensive copy lives in the caller
`drawCells`, which passes the spread copy `[...monthData]`.) -/
theorem summariseMonth_sort_inplace (l : List DailyRecord) :
    (summariseMonth l).days = sortByDate l ∧
    summariseMonthArrayAfter l = (summariseMonth l).days ∧
    List.Perm (summariseMonthArrayAfter l) l ∧
    (summariseMonthArrayAfter l).Pairwise DateLe ∧
    ∀ k : ℕ, (summariseMonthArrayAfter l).filter (fun r => r.date.key == k) =
      l.filter (fun r => r.date.key == k) :=
  ⟨rfl, rfl, sortByDate_perm l, sortByDate_sorted l, fun k => filter_sortByDate l k⟩

/-! ## `loadData` year selection (lines 58–62 of `main.js`)

```js
const allYears = [...new Set(data.map(d => d.date.getFullYear()))].sort();
const years = allYears.slice(-YEARS_COUNT);
```

`[...new Set(xs)]` deduplicates keeping first-occurrence order.  `.sort()`
with no comparator converts elements to strings and orders them by UTF-16
code units — for year numbers, lexicographically on their decimal digit
strings.  `.slice(-k)` keeps the last `k` elements (all of them when the
array is shorter).  We model the decimal string of a natural number as its
most-significant-first digit list (structural recursion on a fuel bound so
everything evaluates), and string comparison as lexicographic comparison
of digit lists. -/

def decimalDigitsGo : ℕ → ℕ → List ℕ
  | 0, _ => []
  | fuel + 1, n => if n < 10 then [n] else decimalDigitsGo fuel (n / 10) ++ [n % 10]

/-- Most-significant-first decimal digits of `n`, i.e. the characters of
`String(n)` for an integer year. -/
def decimalDigits (n : ℕ) : List ℕ := decimalDigitsGo (n + 1) n

theorem decimalDigitsGo_congr :
    ∀ f1 : ℕ, ∀ n f2 : ℕ, n < f1 → n < f2 →
      decimalDigitsGo f1 n = decimalDigitsGo f2 n := by
  intro f1
  induction f1 with
  | zero => intro n f2 h1 _; omega
  | succ f ih =>
    intro n f2 h1 h2
    match f2, h2 with
    | g + 1, _ =>
      simp only [decimalDigitsGo]
      by_cases hn : n < 10
      · simp [hn]
      · simp only [if_neg hn]
        have hda : n / 10 < f := by omega
        have hdb : n / 10 < g := by omega
        rw [ih (n / 10) g hda hdb]

/-- Unfolding equation for `decimalDigits`. -/
theorem decimalDigits_eq (n : ℕ) :
    decimalDigits n = if n < 10 then [n] else decimalDigits (n / 10) ++ [n % 10] := by
  show decimalDigitsGo (n + 1) n = _
  simp only [decimalDigitsGo]
  by_cases hn : n < 10
  · simp [hn]
  · simp only [if_neg hn, decimalDigits]
    have h1 : n / 10 < n := Nat.div_lt_self (by omega) (by omega)
    rw [decimalDigitsGo_congr n (n / 10) (n / 10 + 1) h1 (by omega)]

theorem decimalDigits_ne_nil (n : ℕ) : decimalDigits n ≠ [] := by
  rw [decimalDigits_eq]
  by_cases hn : n < 10 <;> simp [hn]

theorem decimalDigits_length_pos (n : ℕ) : 1 ≤ (decimalDigits n).length :=
  List.length_pos.mpr (decimalDigits_ne_nil n)

/-- The numeric value of a most-significant-first digit list. -/
def digitsVal (l : List ℕ) : ℕ := l.foldl (fun acc d => 10 * acc + d) 0

theorem digitsVal_append_last (l : List ℕ) (x : ℕ) :
    digitsVal (l ++ [x]) = 10 * digitsVal l + x := by
  simp [digitsVal, List.foldl_append]

theorem digitsVal_decimalDigits (n : ℕ) : digitsVal (decimalDigits n) = n := by
  induction n using Nat.strong_induction_on with
  | _ n ih =>
    rw [decimalDigits_eq]
    by_cases hn : n < 10
    · simp [hn, digitsVal]
    · have h1 : n / 10 < n := Nat.div_lt_self (by omega) (by omega)
      rw [if_neg hn, digitsVal_append_last, ih (n / 10) h1]
      omega

theorem decimalDigits_injective {a b : ℕ}
    (h : decimalDigits a = decimalDigits b) : a = b := by
  have := digitsVal_decimalDigits a
  rw [h, digitsVal_decimalDigits b] at this
  omega

/-- Lexicographic comparison of digit lists, i.e. JS `<=` on the decimal
strings (code-unit order; digit characters are ordered like digits). -/
def lexLe : List ℕ → List ℕ → Bool
  | [], _ => true
  | _ :: _, [] => false
  | a :: as, b :: bs => if a < b then true else if b < a then false else lexLe as bs

/-- The JS default sort comparator on year numbers: compare their decimal
strings. -/
def strLe (a b : ℕ) : Bool := lexLe (decimalDigits a) (decimalDigits b)

/-- Numeric comparison, for the spec-side reference ordering. -/
def numLe (a b : ℕ) : Bool := a ≤ b

theorem lexLe_single (r s : ℕ) : lexLe [r] [s] = decide (r ≤ s) := by
  simp only [lexLe]
  rcases Nat.lt_trichotomy r s with h | h | h
  · rw [if_pos h]
    simp [Nat.le_of_lt h]
  · subst h
    simp
  · rw [if_neg (Nat.lt_asymm h), if_pos h]
    simp [Nat.not_le.mpr h]

theorem lexLe_append_last :
    ∀ xs ys : List ℕ, ∀ r s : ℕ, xs.length = ys.length →
      lexLe (xs ++ [r]) (ys ++ [s]) =
        if xs = ys then decide (r ≤ s) else lexLe xs ys := by
  intro xs
  induction xs with
  | nil =>
    intro ys r s hlen
    match ys, hlen with
    | [], _ => simpa using lexLe_single r s
  | cons x xs' ih =>
    intro ys r s hlen
    match ys, hlen with
    | y :: ys', hlen =>
      have hlen' : xs'.length = ys'.length := by simpa using hlen
      show lexLe (x :: (xs' ++ [r])) (y :: (ys' ++ [s])) = _
      rcases Nat.lt_trichotomy x y with h1 | h1 | h1
      · have hne : (x :: xs') ≠ (y :: ys') := by
          intro he; cases he; omega
        simp [lexLe, h1, hne]
      · subst h1
        have key : lexLe (x :: (xs' ++ [r])) (x :: (ys' ++ [s])) =
            lexLe (xs' ++ [r]) (ys' ++ [s]) := by
          simp [lexLe]
        rw [key, ih ys' r s hlen']
        by_cases he : xs' = ys'
        · simp [he]
        · have hne : (x :: xs') ≠ (x :: ys') := by
            intro hc; exact he (by injection hc)
          simp [he, hne, lexLe]
      · have hne : (x :: xs') ≠ (y :: ys') := by
          intro he; cases he; omega
        simp [lexLe, Nat.lt_asymm h1, h1, hne]

/-- On numbers whose decimal representations have the same number of
digits, JS string comparison agrees with numeric comparison. -/
theorem strLe_eq_numLe :
    ∀ a b : ℕ, (decimalDigits a).length = (decimalDigits b).length →
      strLe a b = numLe a b := by
  intro a
  induction a using Nat.strong_induction_on with
  | _ a ih =>
    intro b hlen
    by_cases ha : a < 10
    · by_cases hb : b < 10
      · show lexLe (decimalDigits a) (decimalDigits b) = _
        rw [decimalDigits_eq a, decimalDigits_eq b, if_pos ha, if_pos hb,
          lexLe_single]
        simp [numLe]
      · exfalso
        have hlb := decimalDigits_length_pos (b / 10)
        rw [decimalDigits_eq a, decimalDigits_eq b, if_pos ha, if_neg hb,
          List.length_append] at hlen
        simp only [List.length_cons, List.length_nil] at hlen
        omega
    · by_cases hb : b < 10
      · exfalso
        have hla := decimalDigits_length_pos (a / 10)
        rw [decimalDigits_eq a, decimalDigits_eq b, if_neg ha, if_pos hb,
          List.length_append] at hlen
        simp only [List.length_cons, List.length_nil] at hlen
        omega
      · have hlen' : (decimalDigits (a / 10)).length =
            (decimalDigits (b / 10)).length := by
          rw [decimalDigits_eq a, decimalDigits_eq b, if_neg ha, if_neg hb] at hlen
          simpa using hlen
        have hdiv : a / 10 < a := Nat.div_lt_self (by omega) (by omega)
        show lexLe (decimalDigits a) (decimalDigits b) = _
        rw [decimalDigits_eq a, decimalDigits_eq b, if_neg ha, if_neg hb,
          lexLe_append_last _ _ _ _ hlen']
        by_cases heq : decimalDigits (a / 10) = decimalDigits (b / 10)
        · have hq : a / 10 = b / 10 := decimalDigits_injective heq
          rw [if_pos heq]
          have : (a % 10 ≤ b % 10) ↔ (a ≤ b) := by omega
          simp only [numLe]
          exact decide_eq_decide.mpr this
        · have hq : a / 10 ≠ b / 10 := fun hc => heq (by rw [hc])
          rw [if_neg heq]
          have := ih (a / 10) hdiv (b / 10) hlen'
          rw [show lexLe (decimalDigits (a / 10)) (decimalDigits (b / 10)) =
            strLe (a / 10) (b / 10) from rfl, this]
          have : (a / 10 ≤ b / 10) ↔ (a ≤ b) := by omega
          simp only [numLe]
          exact decide_eq_decide.mpr this

/-! ### `[...new Set(xs)]` and the default sort -/

/-- One step of `new Set` insertion: keep first occurrences, in order. -/
def jsSetStep (acc : List ℕ) (y : ℕ) : List ℕ :=
  if y ∈ acc then acc else acc ++ [y]

/-- `[...new Set(l)]`: deduplicate keeping first-occurrence order. -/
def jsSetList (l : List ℕ) : List ℕ := l.foldl jsSetStep []

theorem jsSetList_go_nodup (l : List ℕ) :
    ∀ acc : List ℕ, acc.Nodup → (l.foldl jsSetStep acc).Nodup := by
  induction l with
  | nil => intro acc h; exact h
  | cons y ys ih =>
    intro acc h
    show (ys.foldl jsSetStep (jsSetStep acc y)).Nodup
    apply ih
    by_cases hy : y ∈ acc
    · simpa [jsSetStep, hy] using h
    · simp only [jsSetStep, if_neg hy]
      rw [List.nodup_append]
      exact ⟨h, List.nodup_singleton y, by simpa using hy⟩

theorem jsSetList_nodup (l : List ℕ) : (jsSetList l).Nodup :=
  jsSetList_go_nodup l [] List.nodup_nil

theorem jsSetList_go_mem (l : List ℕ) :
    ∀ acc x, (x ∈ l.foldl jsSetStep acc ↔ x ∈ acc ∨ x ∈ l) := by
  induction l with
  | nil => intro acc x; simp
  | cons y ys ih =>
    intro acc x
    show x ∈ ys.foldl jsSetStep (jsSetStep acc y) ↔ _
    rw [ih]
    by_cases hy : y ∈ acc
    · simp only [jsSetStep, if_pos hy, List.mem_cons]
      constructor
      · rintro (h | h)
        · exact Or.inl h
        · exact Or.inr (Or.inr h)
      · rintro (h | rfl | h)
        · exact Or.inl h
        · exact Or.inl hy
        · exact Or.inr h
    · simp only [jsSetStep, if_neg hy, List.mem_append, List.mem_singleton,
        List.mem_cons]
      tauto

theorem jsSetList_mem (l : List ℕ) (x : ℕ) : x ∈ jsSetList l ↔ x ∈ l := by
  rw [jsSetList, jsSetList_go_mem]
  simp

/-- Stable insertion for the model of `Array.prototype.sort` with a boolean
"less or equal" comparator: walk past elements strictly smaller than `a`,
insert `a` before the first element not smaller (so ties keep input
order). -/
def insertLe (le : ℕ → ℕ → Bool) (a : ℕ) : List ℕ → List ℕ
  | [] => [a]
  | b :: l => if le b a && !le a b then b :: insertLe le a l else a :: b :: l

def sortLe (le : ℕ → ℕ → Bool) : List ℕ → List ℕ
  | [] => []
  | a :: l => insertLe le a (sortLe le l)

theorem insertLe_perm (le : ℕ → ℕ → Bool) (a : ℕ) (l : List ℕ) :
    List.Perm (insertLe le a l) (a :: l) := by
  induction l with
  | nil => simp [insertLe]
  | cons b xs ih =>
    by_cases h : (le b a && !le a b) = true
    · simp only [insertLe, if_pos h]
      exact (ih.cons b).trans (List.Perm.swap a b xs)
    · simp only [insertLe]
      rw [if_neg h]

theorem sortLe_perm (le : ℕ → ℕ → Bool) (l : List ℕ) :
    List.Perm (sortLe le l) l := by
  induction l with
  | nil => simp [sortLe]
  | cons a xs ih => exact (insertLe_perm le a (sortLe le xs)).trans (ih.cons a)

theorem insertLe_congr (le1 le2 : ℕ → ℕ → Bool) (a : ℕ) (l : List ℕ)
    (h : ∀ b ∈ l, le1 a b = le2 a b ∧ le1 b a = le2 b a) :
    insertLe le1 a l = insertLe le2 a l := by
  induction l with
  | nil => rfl
  | cons b xs ih =>
    obtain ⟨h1, h2⟩ := h b (List.mem_cons_self b xs)
    show (if le1 b a && !le1 a b then b :: insertLe le1 a xs else a :: b :: xs) = _
    rw [h1, h2]
    by_cases hc : (le2 b a && !le2 a b) = true
    · rw [if_pos hc]
      show _ = (if le2 b a && !le2 a b then b :: insertLe le2 a xs else a :: b :: xs)
      rw [if_pos hc, ih (fun c hc' => h c (List.mem_cons_of_mem b hc'))]
    · rw [if_neg hc]
      show _ = (if le2 b a && !le2 a b then b :: insertLe le2 a xs else a :: b :: xs)
      rw [if_neg hc]

theorem sortLe_congr (le1 le2 : ℕ → ℕ → Bool) (l : List ℕ)
    (h : ∀ a ∈ l, ∀ b ∈ l, le1 a b = le2 a b) :
    sortLe le1 l = sortLe le2 l := by
  induction l with
  | nil => rfl
  | cons a xs ih =>
    have hs : sortLe le1 xs = sortLe le2 xs :=
      ih (fun x hx y hy =>
        h x (List.mem_cons_of_mem a hx) y (List.mem_cons_of_mem a hy))
    show insertLe le1 a (sortLe le1 xs) = insertLe le2 a (sortLe le2 xs)
    rw [hs]
    apply insertLe_congr
    intro b hb
    have hbxs : b ∈ xs := (sortLe_perm le2 xs).mem_iff.mp hb
    exact ⟨h a (List.mem_cons_self a xs) b (List.mem_cons_of_mem a hbxs),
      h b (List.mem_cons_of_mem a hbxs) a (List.mem_cons_self a xs)⟩

theorem numLe_strict (a b : ℕ) : (numLe b a && !numLe a b) = true ↔ b < a := by
  simp [numLe]
  omega

theorem insertLe_num_sorted (a : ℕ) (l : List ℕ)
    (h : l.Pairwise (· ≤ ·)) : (insertLe numLe a l).Pairwise (· ≤ ·) := by
  induction l with
  | nil => simp [insertLe]
  | cons b xs ih =>
    rcases List.pairwise_cons.mp h with ⟨hb, hxs⟩
    by_cases hk : (numLe b a && !numLe a b) = true
    · have hba : b < a := (numLe_strict a b).mp hk
      simp only [insertLe, if_pos hk]
      refine List.pairwise_cons.mpr ⟨?_, ih hxs⟩
      intro y hy
      have := (insertLe_perm numLe a xs).mem_iff.mp hy
      rcases List.mem_cons.mp this with rfl | hmem
      · exact Nat.le_of_lt hba
      · exact hb y hmem
    · have hab : a ≤ b := by
        rcases le_or_lt a b with h' | h'
        · exact h'
        · exact absurd ((numLe_strict a b).mpr h') hk
      simp only [insertLe, if_neg hk]
      refine List.pairwise_cons.mpr ⟨?_, h⟩
      intro y hy
      rcases List.mem_cons.mp hy with rfl | hmem
      · exact hab
      · exact le_trans hab (hb y hmem)

theorem sortLe_num_sorted (l : List ℕ) : (sortLe numLe l).Pairwise (· ≤ ·) := by
  induction l with
  | nil => simp [sortLe]
  | cons a xs ih => exact insertLe_num_sorted a (sortLe numLe xs) ih

/-! ### `loadData`'s year selection and its numeric reference -/

/-- Lines 58–59 of `main.js`: dedupe the years, sort them with the JS
default (string-lexicographic) comparator, and keep the last
`YEARS_COUNT`. -/
def selectedYears (rowYears : List ℕ) : List ℕ :=
  let allYears := sortLe strLe (jsSetList rowYears)
  allYears.drop (allYears.length - YEARS_COUNT)

/-- The spec's reading of the same step ("select the most recent
`YEARS_COUNT` in ascending order"): identical pipeline but with *numeric*
ascending sort.  Kept separate so the two can be compared. -/
def specSelectedYears (rowYears : List ℕ) : List ℕ :=
  let allYears := sortLe numLe (jsSetList rowYears)
  allYears.drop (allYears.length - YEARS_COUNT)

theorem pairwise_take_drop {s : List ℕ} (h : s.Pairwise (· < ·)) (k : ℕ) :
    ∀ x ∈ s.take k, ∀ y ∈ s.drop k, x < y := by
  have h' : (s.take k ++ s.drop k).Pairwise (· < ·) := by
    rw [List.take_append_drop]; exact h
  exact (List.pairwise_append.mp h').2.2

/-- Core fact shared by C2 and C10: whenever all years in the input have
decimal representations of the same length, the code's string sort agrees
with the numeric sort, and the selected window is the numerically largest
`YEARS_COUNT` distinct years in ascending order. -/
theorem selectedYears_eqDigits (rowYears : List ℕ)
    (hdig : ∀ a ∈ rowYears, ∀ b ∈ rowYears,
      (decimalDigits a).length = (decimalDigits b).length) :
    selectedYears rowYears = specSelectedYears rowYears ∧
    (selectedYears rowYears).Pairwise (· < ·) ∧
    ((jsSetList rowYears).length ≤ YEARS_COUNT →
      List.Perm (selectedYears rowYears) (jsSetList rowYears)) ∧
    (selectedYears rowYears).length =
      Min.min (jsSetList rowYears).length YEARS_COUNT ∧
    (∀ y ∈ selectedYears rowYears, ∀ z ∈ rowYears,
      z ∉ selectedYears rowYears → z < y) := by
  have hsort : sortLe strLe (jsSetList rowYears) =
      sortLe numLe (jsSetList rowYears) := by
    apply sortLe_congr
    intro a ha b hb
    exact strLe_eq_numLe a b
      (hdig a ((jsSetList_mem rowYears a).mp ha) b ((jsSetList_mem rowYears b).mp hb))
  have hsel : selectedYears rowYears = specSelectedYears rowYears := by
    simp only [selectedYears, specSelectedYears, hsort]
  set s := sortLe numLe (jsSetList rowYears) with hs
  have hperm : List.Perm s (jsSetList rowYears) := sortLe_perm numLe _
  have hlen : s.length = (jsSetList rowYears).length := hperm.length_eq
  have hnd : s.Nodup := (hperm.nodup_iff).mpr (jsSetList_nodup rowYears)
  have hsorted : s.Pairwise (· ≤ ·) := sortLe_num_sorted _
  have hstrict : s.Pairwise (· < ·) :=
    (hsorted.and hnd).imp (fun {x y} h => lt_of_le_of_ne h.1 h.2)
  have hspec : specSelectedYears rowYears = s.drop (s.length - YEARS_COUNT) := rfl
  refine ⟨hsel, ?_, ?_, ?_, ?_⟩
  · rw [hsel, hspec]
    exact hstrict.sublist (List.drop_sublist _ _)
  · intro hle
    rw [hsel, hspec]
    have : s.length - YEARS_COUNT = 0 := by omega
    rw [this, List.drop_zero]
    exact hperm
  · rw [hsel, hspec, List.length_drop]
    omega
  · intro y hy z hz hz'
    rw [hsel, hspec] at hy hz'
    have hzs : z ∈ s := hperm.mem_iff.mpr ((jsSetList_mem rowYears z).mpr hz)
    have : z ∈ s.take (s.length - YEARS_COUNT) ++ s.drop (s.length - YEARS_COUNT) := by
      rw [List.take_append_drop]; exact hzs
    rcases List.mem_append.mp this with htake | hdrop
    · exact pairwise_take_drop hstrict _ z htake y hy
    · exact absurd hdrop hz'

/-! ## Claim C2 -/

set_option maxRecDepth 8000 in
/-- **C2 counterexample.** `loadData`'s year ordering is *not* ascending for
every input: the JS default sort compares years as strings, so for distinct
years `999` and `1000` the returned list is `[1000, 999]` — not ascending,
and different from the numeric reference selection. -/
theorem selectedYears_counterexample :
    selectedYears [999, 1000] = [1000, 999] ∧
    ¬ (selectedYears [999, 1000]).Pairwise (· < ·) ∧
    selectedYears [999, 1000] ≠ specSelectedYears [999, 1000] := by
  refine ⟨by decide, ?_, by decide⟩
  intro h
  rw [show selectedYears [999, 1000] = [1000, 999] from by decide] at h
  have := List.pairwise_cons.mp h
  exact absurd (this.1 999 (List.mem_singleton.mpr rfl)) (by omega)

set_option maxRecDepth 8000 in
/-- **C2 amended.** When every year in the input has a decimal
representation of the same digit count (in particular for all realistic
temperature data), `loadData` selects the numerically most recent
`YEARS_COUNT = 10` distinct years in ascending order: the selection is
strictly ascending, equals all distinct years when there are at most 10,
has length `min(#distinct years, 10)`, and every unselected year is
smaller than every selected year.  For records spanning 2010–2023 the
selected years are exactly 2014–2023. -/
theorem selectedYears_amended :
    (∀ rowYears : List ℕ,
      (∀ a ∈ rowYears, ∀ b ∈ rowYears,
        (decimalDigits a).length = (decimalDigits b).length) →
      (selectedYears rowYears).Pairwise (· < ·) ∧
      ((jsSetList rowYears).length ≤ YEARS_COUNT →
        List.Perm (selectedYears rowYears) (jsSetList rowYears)) ∧
      (selectedYears rowYears).length =
        Min.min (jsSetList rowYears).length YEARS_COUNT ∧
      (∀ y ∈ selectedYears rowYears, ∀ z ∈ rowYears,
        z ∉ selectedYears rowYears → z < y)) ∧
    selectedYears ((List.range 14).map (fun i => 2010 + i)) =
      (List.range 10).map (fun i => 2014 + i) := by
  constructor
  · intro rowYears hdig
    obtain ⟨_, h2, h3, h4, h5⟩ := selectedYears_eqDigits rowYears hdig
    exact ⟨h2, h3, h4, h5⟩
  · decide

set_option maxRecDepth 8000 in
/-- Witness for C2 (amended): the equal-digit-count hypothesis holds for a
concrete input with a duplicate year, and the conclusions follow by the
theorem. -/
theorem selectedYears_amended_witness :
    (∀ a ∈ [2020, 2019, 2020, 2018], ∀ b ∈ [2020, 2019, 2020, 2018],
      (decimalDigits a).length = (decimalDigits b).length) ∧
    ((selectedYears [2020, 2019, 2020, 2018]).Pairwise (· < ·) ∧
      ((jsSetList [2020, 2019, 2020, 2018]).length ≤ YEARS_COUNT →
        List.Perm (selectedYears [2020, 2019, 2020, 2018])
          (jsSetList [2020, 2019, 2020, 2018])) ∧
      (selectedYears [2020, 2019, 2020, 2018]).length =
        Min.min (jsSetList [2020, 2019, 2020, 2018]).length YEARS_COUNT ∧
      (∀ y ∈ selectedYears [2020, 2019, 2020, 2018],
        ∀ z ∈ [2020, 2019, 2020, 2018],
          z ∉ selectedYears [2020, 2019, 2020, 2018] → z < y)) :=
  ⟨by decide, selectedYears_amended.1 [2020, 2019, 2020, 2018] (by decide)⟩

/-! ## Claim C10 -/

set_option maxRecDepth 8000 in
/-- **C10.** `loadData` orders the distinct years with the JS default sort,
which compares years as decimal strings.  For inputs whose distinct years
all have the same digit count this coincides with ascending numeric order
(so `slice(-YEARS_COUNT)` selects the numerically most recent years), but
for the input spanning 995–1005 the result is not numerically ascending and
the selected window is not the numerically most recent ten years: 1000 is
dropped while the smaller 995 is kept. -/
theorem selectedYears_lexicographic :
    (∀ rowYears : List ℕ,
      (∀ a ∈ rowYears, ∀ b ∈ rowYears,
        (decimalDigits a).length = (decimalDigits b).length) →
      selectedYears rowYears = specSelectedYears rowYears ∧
      (selectedYears rowYears).Pairwise (· < ·) ∧
      (∀ y ∈ selectedYears rowYears, ∀ z ∈ rowYears,
        z ∉ selectedYears rowYears → z < y)) ∧
    (selectedYears ((List.range 11).map (fun i => 995 + i)) =
        [1001, 1002, 1003, 1004, 1005, 995, 996, 997, 998, 999] ∧
      1000 ∈ (List.range 11).map (fun i => 995 + i) ∧
      1000 ∉ selectedYears ((List.range 11).map (fun i => 995 + i)) ∧
      995 ∈ selectedYears ((List.range 11).map (fun i => 995 + i)) ∧
      995 < 1000) := by
  constructor
  · intro rowYears hdig
    obtain ⟨h1, h2, _, _, h5⟩ := selectedYears_eqDigits rowYears hdig
    exact ⟨h1, h2, h5⟩
  · decide

set_option maxRecDepth 8000 in
/-- Witness for C10: the equal-digit-count hypothesis holds for the
four-digit years 2011, 2010, 2012. -/
theorem selectedYears_lexicographic_witness :
    (∀ a ∈ [2011, 2010, 2012], ∀ b ∈ [2011, 2010, 2012],
      (decimalDigits a).length = (decimalDigits b).length) ∧
    (selectedYears [2011, 2010, 2012] = specSelectedYears [2011, 2010, 2012] ∧
      (selectedYears [2011, 2010, 2012]).Pairwise (· < ·) ∧
      (∀ y ∈ selectedYears [2011, 2010, 2012], ∀ z ∈ [2011, 2010, 2012],
        z ∉ selectedYears [2011, 2010, 2012] → z < y)) :=
  ⟨by decide, selectedYears_lexicographic.1 [2011, 2010, 2012] (by decide)⟩

/-! ## Scales (`drawAxes`, `buildColourScale`)

`d3.scaleBand()` with domain `D`, ascending range `[r0, r1]`, `.padding(p)`
(which sets both inner and outer padding to `p`), default `align = 0.5` and
no rounding computes
`step = (r1 - r0) / max(1, n - pInner + 2*pOuter)`,
`start = r0 + (r1 - r0 - step*(n - pInner)) * align`,
`bandwidth = step * (1 - pInner)`, and maps the `i`-th domain value to
`start + step*i` (`undefined` for values outside the domain). -/

structure BandScale where
  domain : List ℕ
  r0 : ℚ
  r1 : ℚ
  paddingInner : ℚ
  paddingOuter : ℚ
  align : ℚ
deriving DecidableEq, Repr

def BandScale.step (s : BandScale) : ℚ :=
  (s.r1 - s.r0) /
    Max.max 1 ((s.domain.length : ℚ) - s.paddingInner + 2 * s.paddingOuter)

def BandScale.start (s : BandScale) : ℚ :=
  s.r0 + (s.r1 - s.r0 - s.step * ((s.domain.length : ℚ) - s.paddingInner)) * s.align

def BandScale.bandwidth (s : BandScale) : ℚ := s.step * (1 - s.paddingInner)

def BandScale.pos (s : BandScale) (k : ℕ) : Option ℚ :=
  (s.domain.indexOf? k).map (fun i => s.start + s.step * (i : ℚ))

/-- `d3.scaleBand().domain(d).range([r0, r1]).padding(p)`. -/
def mkBandScale (domain : List ℕ) (r0 r1 p : ℚ) : BandScale :=
  { domain := domain, r0 := r0, r1 := r1,
    paddingInner := p, paddingOuter := p, align := 1/2 }

structure Scales where
  xScale : BandScale
  yScale : BandScale
deriving DecidableEq, Repr

/-- Lines 133–145 of `main.js`: the two band scales built by `drawAxes`. -/
def drawAxes (years : List ℕ) : Scales :=
  { xScale := mkBandScale years 0 (CELL_WIDTH * (years.length : ℚ)) (5/100)
    yScale := mkBandScale (List.range MONTHS_COUNT) 0
      (CELL_HEIGHT * (MONTHS_COUNT : ℚ)) (5/100) }

/-- `d3.scaleSequential().domain([TEMP_MIN, TEMP_MAX])
.interpolator(d3.interpolateYlOrRd)`: the produced colour is
`interpolateYlOrRd(t)` with `t = (v - TEMP_MIN)/(TEMP_MAX - TEMP_MIN)`.
The interpolator is a fixed deterministic colour ramp, so we identify a
colour with its interpolation parameter `t`. -/
def buildColourScale : ℚ → ℚ :=
  fun v => (v - (TEMP_MIN : ℚ)) / ((TEMP_MAX : ℚ) - (TEMP_MIN : ℚ))

/-! ## `drawCells` (lines 176–232 of `main.js`) -/

/-- One entry of the flat `cells` array:
`{ year, month, ...summariseMonth([...monthData]) }`. -/
structure Cell where
  year : ℕ
  month : ℕ
  monthlyMax : Option ℚ
  monthlyMin : Option ℚ
  days : List DailyRecord
deriving DecidableEq, Repr

/-- The records of `data` whose date has the given year and month, in input
order: the contents of `nested.get(year)?.get(month)` built by
`d3.group(filtered, d => d.date.getFullYear(), d => d.date.getMonth())`.
`d3.group` creates a group iff at least one record has that key, and the
group lists records in input order. -/
def groupYM (data : List DailyRecord) (y m : ℕ) : List DailyRecord :=
  data.filter (fun d => d.date.year == y && d.date.month == m)

/-- The cell pushed for one `(year, month)` pair, or `none` when the nested
map has no entry (`monthData` is `undefined`): `d3.group` never creates
empty groups, so the `if (monthData)` guard passes iff the group is
non-empty. -/
def cellOfMonth (data : List DailyRecord) (year month : ℕ) : Option Cell :=
  let monthData := groupYM data year month
  if monthData.isEmpty then none
  else
    let summary := summariseMonth monthData
    some { year := year, month := month, monthlyMax := summary.monthlyMax,
           monthlyMin := summary.monthlyMin, days := summary.days }

/-- The flat `cells` array: iterate years, then months `0..11`, keeping the
pairs that have data. -/
def buildCells (data : List DailyRecord) (years : List ℕ) : List Cell :=
  years.flatMap (fun year =>
    (List.range MONTHS_COUNT).filterMap (cellOfMonth data year))

/-- The attributes set on one cell group and its `<rect>`: the group is
translated to `(xScale(year), yScale(month))`, the rect is
`xScale.bandwidth() × yScale.bandwidth()` and filled with
`colour(showMax ? monthlyMax : monthlyMin)`. -/
structure RenderedCell where
  datum : Cell
  x : Option ℚ
  y : Option ℚ
  w : ℚ
  h : ℚ
  fill : Option ℚ
deriving DecidableEq, Repr

def renderCell (xScale yScale : BandScale) (colour : ℚ → ℚ) (showMax : Bool)
    (c : Cell) : RenderedCell :=
  { datum := c
    x := xScale.pos c.year
    y := yScale.pos c.month
    w := xScale.bandwidth
    h := yScale.bandwidth
    fill := (if showMax then c.monthlyMax else c.monthlyMin).map colour }

def drawCells (data : List DailyRecord) (years : List ℕ)
    (xScale yScale : BandScale) (colour : ℚ → ℚ) (showMax : Bool) :
    List RenderedCell :=
  (buildCells data years).map (renderCell xScale yScale colour showMax)

/-- `drawCells` as wired up by `main()`: scales from `drawAxes`, colour
scale from `buildColourScale`. -/
def mainDrawCells (data : List DailyRecord) (years : List ℕ) (showMax : Bool) :
    List RenderedCell :=
  drawCells data years (drawAxes years).xScale (drawAxes years).yScale
    buildColourScale showMax

/-! ## `drawMiniCharts` (lines 240–280 of `main.js`) -/

structure LinearScale where
  d0 : ℚ
  d1 : ℚ
  r0 : ℚ
  r1 : ℚ
deriving DecidableEq, Repr

def LinearScale.apply (s : LinearScale) (v : ℚ) : ℚ :=
  s.r0 + (v - s.d0) * (s.r1 - s.r0) / (s.d1 - s.d0)

/-- The per-cell mini chart: the two local scales and the point sequences
fed to the two `d3.line()` generators (the monotone-curve path geometry
between the points is not modelled). -/
structure MiniChart where
  xMini : LinearScale
  yMini : LinearScale
  maxPoints : List (ℚ × ℚ)
  minPoints : List (ℚ × ℚ)
deriving DecidableEq, Repr

def miniPadding : ℚ := 4

/-- `groups.each(...)` body for one cell of bandwidth `w × h`; skips
entirely (`return`) when `days` is empty. -/
def drawMiniChart (c : Cell) (w h : ℚ) : Option MiniChart :=
  if c.days.isEmpty then none
  else
    let xMini : LinearScale :=
      ⟨0, (c.days.length : ℚ) - 1, miniPadding, w - miniPadding⟩
    let yMini : LinearScale :=
      ⟨(TEMP_MIN : ℚ), (TEMP_MAX : ℚ), h - miniPadding, miniPadding⟩
    some { xMini := xMini
           yMini := yMini
           maxPoints := c.days.enum.map
             (fun p => (xMini.apply (p.1 : ℚ), yMini.apply p.2.max))
           minPoints := c.days.enum.map
             (fun p => (xMini.apply (p.1 : ℚ), yMini.apply p.2.min)) }

def drawMiniCharts (cells : List Cell) (w h : ℚ) : List (Option MiniChart) :=
  cells.map (fun c => drawMiniChart c w h)

/-! ## `drawLegend` (lines 290–331 of `main.js`) -/

structure LegendStop where
  offset : ℚ
  stopColor : ℚ
deriving DecidableEq, Repr

structure Legend where
  x : ℚ
  width : ℚ
  height : ℚ
  stops : List LegendStop
  topLabelText : String
  topLabelY : ℚ
  bottomLabelText : String
  bottomLabelY : ℚ
deriving DecidableEq, Repr

def drawLegend (colour : ℚ → ℚ) (years : List ℕ) : Legend :=
  let legendHeight : ℚ := CELL_HEIGHT * (MONTHS_COUNT : ℚ)
  let legendWidth : ℚ := 18
  let x : ℚ := CELL_WIDTH * (years.length : ℚ) + 30
  let steps : ℕ := 10
  { x := x
    width := legendWidth
    height := legendHeight
    stops := (List.range (steps + 1)).map (fun i =>
      let t : ℚ := (i : ℚ) / (steps : ℚ)
      { offset := t * 100
        stopColor := colour ((TEMP_MIN : ℚ) + ((TEMP_MAX : ℚ) - (TEMP_MIN : ℚ)) * t) })
    topLabelText := s!"{TEMP_MIN} °C"
    topLabelY := 10
    bottomLabelText := s!"{TEMP_MAX} °C"
    bottomLabelY := legendHeight }

/-! ## `toggleMode` (lines 344–356 of `main.js`)

The page state after rendering: the mode flag, the `#mode-label` text, the
bound dataset, the cell rects (each keeps its bound datum `d`; the fill
callback re-reads it), the mini-chart paths, the legend and the two band
scales.  `toggleMode` flips the flag, rewrites the label and re-evaluates
only the `fill` attribute of every `.cell` rect through the same colour
scale (the ~400 ms transition animates towards exactly this fill). -/

structure AppState where
  showMax : Bool
  modeLabel : String
  dataset : List Cell
  cells : List RenderedCell
  miniCharts : List (Option MiniChart)
  legend : Legend
  xScale : BandScale
  yScale : BandScale
deriving DecidableEq, Repr

def toggleMode (st : AppState) : AppState :=
  let newShow := !st.showMax
  { st with
    showMax := newShow
    modeLabel := if newShow then "Maximum" else "Minimum"
    cells := st.cells.map (fun r =>
      { r with fill := ((if newShow then r.datum.monthlyMax else r.datum.monthlyMin).map buildColourScale) }) }

/-! ## Claim C5 -/

/-- **C5.** Starting from any state whose cell fills are consistent with the
current mode (as every reachable state is: the initial render and each
toggle set exactly these fills), two consecutive toggles restore `showMax`
to its original value and every cell — in particular its computed fill
colour — to its value before the first toggle. -/
theorem toggle_involution (st : AppState)
    (hcons : ∀ r ∈ st.cells,
      r.fill = (if st.showMax then r.datum.monthlyMax else r.datum.monthlyMin).map buildColourScale) :
    (toggleMode (toggleMode st)).showMax = st.showMax ∧
    (toggleMode (toggleMode st)).cells = st.cells := by
  refine ⟨by simp [toggleMode], ?_⟩
  have hred : (toggleMode (toggleMode st)).cells = st.cells.map (fun r =>
      ({ r with fill := ((if st.showMax then r.datum.monthlyMax else r.datum.monthlyMin).map buildColourScale) } : RenderedCell)) := by
    simp [toggleMode, List.map_map, Function.comp]
  rw [hred]
  have hid : ∀ r ∈ st.cells,
      ({ r with fill := ((if st.showMax then r.datum.monthlyMax else r.datum.monthlyMin).map buildColourScale) } : RenderedCell) = id r := by
    intro r hr
    rw [← hcons r hr]
    rfl
  rw [List.map_congr_left hid, List.map_id]

/-- A one-cell page state in MAX mode with fill consistent with the mode,
used to witness the toggle claims. -/
def demoRendered : RenderedCell :=
  { datum := { year := 2023, month := 0, monthlyMax := some 14,
               monthlyMin := some 2, days := [] }
    x := some 0, y := some 0, w := 95, h := 133/2
    fill := some (buildColourScale 14) }

def demoState : AppState :=
  { showMax := true
    modeLabel := "Maximum"
    dataset := []
    cells := [demoRendered]
    miniCharts := []
    legend := drawLegend buildColourScale [2023]
    xScale := (drawAxes [2023]).xScale
    yScale := (drawAxes [2023]).yScale }

/-- Witness for C5: on the concrete consistent one-cell state, the double
toggle restores the mode flag and the cell list. -/
theorem toggle_involution_witness :
    (∀ r ∈ demoState.cells,
      r.fill = (if demoState.showMax then r.datum.monthlyMax else r.datum.monthlyMin).map buildColourScale) ∧
    ((toggleMode (toggleMode demoState)).showMax = demoState.showMax ∧
      (toggleMode (toggleMode demoState)).cells = demoState.cells) :=
  ⟨by intro r hr
      simp only [demoState, List.mem_singleton] at hr
      subst hr
      rfl,
    toggle_involution demoState
      (by intro r hr
          simp only [demoState, List.mem_singleton] at hr
          subst hr
          rfl)⟩

/-! ## Claim C6 -/

/-- **C6.** One toggle changes only the mode flag, the mode-indicator text
(set per the new flag) and each cell's fill (re-evaluated through the same
colour scale against the newly-active field): the bound dataset, every
cell's position, size and bound datum, the mini charts, the legend and
both band scales are untouched — no re-aggregation, no re-layout, no scale
rebuild.  (The ~400 ms transition only animates towards the new fill; the
end state is what is modelled.) -/
theorem toggle_frame (st : AppState) :
    (toggleMode st).showMax = !st.showMax ∧
    (toggleMode st).modeLabel =
      (if (toggleMode st).showMax then "Maximum" else "Minimum") ∧
    (toggleMode st).dataset = st.dataset ∧
    (toggleMode st).miniCharts = st.miniCharts ∧
    (toggleMode st).legend = st.legend ∧
    (toggleMode st).xScale = st.xScale ∧
    (toggleMode st).yScale = st.yScale ∧
    (toggleMode st).cells.map (fun r => r.datum) = st.cells.map (fun r => r.datum) ∧
    (toggleMode st).cells.map (fun r => r.x) = st.cells.map (fun r => r.x) ∧
    (toggleMode st).cells.map (fun r => r.y) = st.cells.map (fun r => r.y) ∧
    (toggleMode st).cells.map (fun r => r.w) = st.cells.map (fun r => r.w) ∧
    (toggleMode st).cells.map (fun r => r.h) = st.cells.map (fun r => r.h) ∧
    (toggleMode st).cells.map (fun r => r.fill) = st.cells.map (fun r =>
      ((if !st.showMax then r.datum.monthlyMax else r.datum.monthlyMin).map buildColourScale)) := by
  refine ⟨rfl, rfl, rfl, rfl, rfl, rfl, rfl, ?_, ?_, ?_, ?_, ?_, ?_⟩ <;>
    simp [toggleMode, List.map_map, Function.comp]

/-! ## Claim C7 -/

/-- **C7.** Every drawn micro-chart uses the same fixed y-scale — domain
`[TEMP_MIN, TEMP_MAX] = [0, 40]`, inverted range `[h − padding, padding]`
with `padding = 4` — independent of the cell's data, while its x-scale has
the per-cell domain `[0, days.length − 1]` and range
`[padding, w − padding]`; hence two cells with different day counts get
identical y-scales but different x-scale domains. -/
theorem miniChart_scales (w h : ℚ) (c1 c2 : Cell)
    (h1 : c1.days ≠ []) (h2 : c2.days ≠ [])
    (hne : c1.days.length ≠ c2.days.length) :
    (drawMiniChart c1 w h).map (fun m => m.yMini) =
      some (⟨(TEMP_MIN : ℚ), (TEMP_MAX : ℚ), h - miniPadding, miniPadding⟩ : LinearScale) ∧
    (drawMiniChart c2 w h).map (fun m => m.yMini) =
      (drawMiniChart c1 w h).map (fun m => m.yMini) ∧
    (drawMiniChart c1 w h).map (fun m => m.xMini) =
      some (⟨0, (c1.days.length : ℚ) - 1, miniPadding, w - miniPadding⟩ : LinearScale) ∧
    (drawMiniChart c2 w h).map (fun m => m.xMini) =
      some (⟨0, (c2.days.length : ℚ) - 1, miniPadding, w - miniPadding⟩ : LinearScale) ∧
    (drawMiniChart c1 w h).map (fun m => (m.xMini.d0, m.xMini.d1)) ≠
      (drawMiniChart c2 w h).map (fun m => (m.xMini.d0, m.xMini.d1)) := by
  have he1 : c1.days.isEmpty = false := List.isEmpty_eq_false.mpr h1
  have he2 : c2.days.isEmpty = false := List.isEmpty_eq_false.mpr h2
  refine ⟨by simp [drawMiniChart, he1], by simp [drawMiniChart, he1, he2],
    by simp [drawMiniChart, he1], by simp [drawMiniChart, he2], ?_⟩
  simp only [drawMiniChart, he1, he2, Bool.false_eq_true, if_false, Option.map_some]
  intro hpair
  have hinj := Option.some.inj hpair
  have hsnd : ((c1.days.length : ℚ) - 1) = ((c2.days.length : ℚ) - 1) :=
    congrArg Prod.snd hinj
  have hcast : (c1.days.length : ℚ) = (c2.days.length : ℚ) := by linarith
  exact hne (Nat.cast_injective hcast)

/-- Two-day January 2023 cell (the spec's end-to-end example). -/
def demoCellJan : Cell :=
  ⟨2023, 0, some 14, some 2, [⟨⟨2023, 0, 1⟩, 10, 2⟩, ⟨⟨2023, 0, 2⟩, 14, 4⟩]⟩

/-- Three-day February 2023 cell. -/
def demoCellFeb : Cell :=
  ⟨2023, 1, some 12, some 1,
    [⟨⟨2023, 1, 1⟩, 9, 1⟩, ⟨⟨2023, 1, 2⟩, 11, 3⟩, ⟨⟨2023, 1, 3⟩, 12, 5⟩]⟩

/-- Witness for C7: a 2-day January cell and a 3-day February cell. -/
theorem miniChart_scales_witness :
    (demoCellJan.days ≠ [] ∧ demoCellFeb.days ≠ [] ∧
      demoCellJan.days.length ≠ demoCellFeb.days.length) ∧
    ((drawMiniChart demoCellJan 95 66).map (fun m => m.yMini) =
        some (⟨(TEMP_MIN : ℚ), (TEMP_MAX : ℚ), (66 : ℚ) - miniPadding, miniPadding⟩ : LinearScale) ∧
      (drawMiniChart demoCellFeb 95 66).map (fun m => m.yMini) =
        (drawMiniChart demoCellJan 95 66).map (fun m => m.yMini) ∧
      (drawMiniChart demoCellJan 95 66).map (fun m => m.xMini) =
        some (⟨0, (demoCellJan.days.length : ℚ) - 1, miniPadding, (95 : ℚ) - miniPadding⟩ : LinearScale) ∧
      (drawMiniChart demoCellFeb 95 66).map (fun m => m.xMini) =
        some (⟨0, (demoCellFeb.days.length : ℚ) - 1, miniPadding, (95 : ℚ) - miniPadding⟩ : LinearScale) ∧
      (drawMiniChart demoCellJan 95 66).map (fun m => (m.xMini.d0, m.xMini.d1)) ≠
        (drawMiniChart demoCellFeb 95 66).map (fun m => (m.xMini.d0, m.xMini.d1))) :=
  ⟨⟨by decide, by decide, by decide⟩,
    miniChart_scales 95 66 demoCellJan demoCellFeb
      (by decide) (by decide) (by decide)⟩

/-! ## Claim C8 -/

theorem cellOfMonth_some {data : List DailyRecord} {y m : ℕ} {c : Cell}
    (h : cellOfMonth data y m = some c) :
    c.year = y ∧ c.month = m ∧ c.days = sortByDate (groupYM data y m) ∧
      groupYM data y m ≠ [] := by
  by_cases he : (groupYM data y m).isEmpty
  · rw [cellOfMonth] at h
    simp only [he, if_true] at h
    cases h
  · rw [cellOfMonth] at h
    simp only [he, Bool.false_eq_true, if_false] at h
    cases h
    exact ⟨rfl, rfl, rfl, fun hnil => he (List.isEmpty_iff.mpr hnil)⟩

theorem mem_buildCells {data : List DailyRecord} {years : List ℕ} {c : Cell}
    (h : c ∈ buildCells data years) :
    c.year ∈ years ∧ c.month < MONTHS_COUNT ∧
      c.days = sortByDate (groupYM data c.year c.month) ∧
      groupYM data c.year c.month ≠ [] := by
  obtain ⟨y, hy, hc⟩ := List.mem_flatMap.mp h
  obtain ⟨m, hm, hsome⟩ := List.mem_filterMap.mp hc
  obtain ⟨hyear, hmonth, hdays, hne⟩ := cellOfMonth_some hsome
  subst hyear
  subst hmonth
  exact ⟨hy, List.mem_range.mp hm, hdays, hne⟩

/-- **C8.** A `(year, month)` pair with no matching daily records produces
no cell; every cell that exists has non-empty `days`; so does every
rendered cell; and the micro-chart renderer skips entirely on an empty
`days` list. -/
theorem no_cell_for_empty_month (data : List DailyRecord) (years : List ℕ) :
    (∀ y m : ℕ, groupYM data y m = [] →
      ∀ c ∈ buildCells data years, ¬(c.year = y ∧ c.month = m)) ∧
    (∀ c ∈ buildCells data years, c.days ≠ []) ∧
    (∀ showMax : Bool, ∀ r ∈ mainDrawCells data years showMax,
      r.datum.days ≠ []) ∧
    (∀ c : Cell, ∀ w h : ℚ, c.days = [] → drawMiniChart c w h = none) := by
  have hdays : ∀ c ∈ buildCells data years, c.days ≠ [] := by
    intro c hc
    obtain ⟨_, _, hdays, hne⟩ := mem_buildCells hc
    rw [hdays]
    intro hnil
    have := (sortByDate_perm (groupYM data c.year c.month)).symm.length_eq
    rw [hnil] at this
    simp only [List.length_nil] at this
    exact hne (List.length_eq_zero.mp this)
  refine ⟨?_, hdays, ?_, ?_⟩
  · rintro y m hempty c hc ⟨hy, hm⟩
    obtain ⟨_, _, _, hne⟩ := mem_buildCells hc
    rw [hy, hm] at hne
    exact hne hempty
  · intro showMax r hr
    obtain ⟨c, hc, rfl⟩ := List.mem_map.mp hr
    exact hdays c hc
  · intro c w h hnil
    rw [drawMiniChart]
    simp [hnil]

/-- Witness for C8 on a concrete dataset: one January 2023 record, so
February has no group, and the singleton group yields the only cell. -/
theorem no_cell_for_empty_month_witness :
    (groupYM [⟨⟨2023, 0, 1⟩, 10, 2⟩] 2023 1 = [] ∧
      (¬((⟨2023, 0, some 10, some 2, [⟨⟨2023, 0, 1⟩, 10, 2⟩]⟩ : Cell).year = 2023 ∧
          (⟨2023, 0, some 10, some 2, [⟨⟨2023, 0, 1⟩, 10, 2⟩]⟩ : Cell).month = 1))) ∧
    ((⟨2023, 0, some 10, some 2, [⟨⟨2023, 0, 1⟩, 10, 2⟩]⟩ : Cell) ∈
        buildCells [⟨⟨2023, 0, 1⟩, 10, 2⟩] [2023] ∧
      (⟨2023, 0, some 10, some 2, [⟨⟨2023, 0, 1⟩, 10, 2⟩]⟩ : Cell).days ≠ []) ∧
    ((⟨2023, 0, some 10, some 2, [⟨⟨2023, 0, 1⟩, 10, 2⟩]⟩ : Cell).days = [] →
      drawMiniChart ⟨2023, 0, some 10, some 2, [⟨⟨2023, 0, 1⟩, 10, 2⟩]⟩ 95 66 = none) := by
  have hmem : (⟨2023, 0, some 10, some 2, [⟨⟨2023, 0, 1⟩, 10, 2⟩]⟩ : Cell) ∈
      buildCells [⟨⟨2023, 0, 1⟩, 10, 2⟩] [2023] := by decide
  refine ⟨⟨by decide, ?_⟩, ⟨hmem, ?_⟩, ?_⟩
  · exact (no_cell_for_empty_month [⟨⟨2023, 0, 1⟩, 10, 2⟩] [2023]).1 2023 1
      (by decide) _ hmem
  · exact (no_cell_for_empty_month [⟨⟨2023, 0, 1⟩, 10, 2⟩] [2023]).2.1 _ hmem
  · exact (no_cell_for_empty_month [⟨⟨2023, 0, 1⟩, 10, 2⟩] [2023]).2.2.2 _ 95 66

/-! ## Claim C9 -/

/-- **C9.** The legend is built from the same colour scale as the cell
fills: its gradient has 11 ≥ 10 evenly spaced stops, the stop at fraction
`t = i/10` coloured `colourScale(TEMP_MIN + (TEMP_MAX − TEMP_MIN)·t)`; the
labels read "0 °C" at the top (y = 10) and "40 °C" at the bottom
(y = legend height); the bar sits right of the grid at
`x = CELL_WIDTH · yearCount + 30`; and every rendered cell's fill is the
same `buildColourScale` applied to the active field. -/
theorem legend_spec (data : List DailyRecord) (years : List ℕ) (showMax : Bool) :
    (drawLegend buildColourScale years).stops =
      (List.range 11).map (fun i : ℕ =>
        { offset := ((i : ℚ) / 10) * 100
          stopColor := buildColourScale
            ((TEMP_MIN : ℚ) + ((TEMP_MAX : ℚ) - (TEMP_MIN : ℚ)) * ((i : ℚ) / 10)) }) ∧
    10 ≤ (drawLegend buildColourScale years).stops.length ∧
    (drawLegend buildColourScale years).topLabelText = "0 °C" ∧
    (drawLegend buildColourScale years).topLabelY = 10 ∧
    (drawLegend buildColourScale years).bottomLabelText = "40 °C" ∧
    (drawLegend buildColourScale years).bottomLabelY =
      CELL_HEIGHT * (MONTHS_COUNT : ℚ) ∧
    (drawLegend buildColourScale years).topLabelY <
      (drawLegend buildColourScale years).bottomLabelY ∧
    (drawLegend buildColourScale years).x =
      CELL_WIDTH * (years.length : ℚ) + 30 ∧
    (∀ r ∈ mainDrawCells data years showMax,
      r.fill = (if showMax then r.datum.monthlyMax else r.datum.monthlyMin).map buildColourScale) := by
  refine ⟨rfl, ?_, ?_, rfl, ?_, rfl, ?_, rfl, ?_⟩
  · have hstops : (drawLegend buildColourScale years).stops =
        (List.range 11).map (fun i : ℕ =>
          ({ offset := ((i : ℚ) / 10) * 100
             stopColor := buildColourScale
               ((TEMP_MIN : ℚ) + ((TEMP_MAX : ℚ) - (TEMP_MIN : ℚ)) * ((i : ℚ) / 10)) } : LegendStop)) := rfl
    rw [hstops, List.length_map, List.length_range]
    omega
  · show s!"{TEMP_MIN} °C" = "0 °C"
    decide
  · show s!"{TEMP_MAX} °C" = "40 °C"
    decide
  · show (10 : ℚ) < CELL_HEIGHT * (MONTHS_COUNT : ℚ)
    rw [CELL_HEIGHT, MONTHS_COUNT]
    norm_num
  · intro r hr
    obtain ⟨c, hc, rfl⟩ := List.mem_map.mp hr
    rfl

/-- Witness for C9: instantiated on the one-record dataset, extracting the
fill-consistency fact for the single rendered cell. -/
theorem legend_spec_witness :
    ((⟨⟨2023, 0, some 10, some 2, [⟨⟨2023, 0, 1⟩, 10, 2⟩]⟩, ((drawAxes [2023]).xScale.pos 2023), ((drawAxes [2023]).yScale.pos 0), (drawAxes [2023]).xScale.bandwidth, (drawAxes [2023]).yScale.bandwidth, ((some (10 : ℚ)).map buildColourScale)⟩ : RenderedCell) ∈
      mainDrawCells [⟨⟨2023, 0, 1⟩, 10, 2⟩] [2023] true) ∧
    ((⟨⟨2023, 0, some 10, some 2, [⟨⟨2023, 0, 1⟩, 10, 2⟩]⟩, ((drawAxes [2023]).xScale.pos 2023), ((drawAxes [2023]).yScale.pos 0), (drawAxes [2023]).xScale.bandwidth, (drawAxes [2023]).yScale.bandwidth, ((some (10 : ℚ)).map buildColourScale)⟩ : RenderedCell).fill =
      (if (true : Bool) then some (10 : ℚ) else some (2 : ℚ)).map buildColourScale) := by
  have hmem : (⟨⟨2023, 0, some 10, some 2, [⟨⟨2023, 0, 1⟩, 10, 2⟩]⟩, ((drawAxes [2023]).xScale.pos 2023), ((drawAxes [2023]).yScale.pos 0), (drawAxes [2023]).xScale.bandwidth, (drawAxes [2023]).yScale.bandwidth, ((some (10 : ℚ)).map buildColourScale)⟩ : RenderedCell) ∈
      mainDrawCells [⟨⟨2023, 0, 1⟩, 10, 2⟩] [2023] true := by
    show _ ∈ (buildCells _ _).map _
    rw [show buildCells [(⟨⟨2023, 0, 1⟩, 10, 2⟩ : DailyRecord)] [2023] =
      [⟨2023, 0, some 10, some 2, [⟨⟨2023, 0, 1⟩, 10, 2⟩]⟩] from by decide]
    exact List.mem_singleton.mpr rfl
  exact ⟨hmem,
    (legend_spec [⟨⟨2023, 0, 1⟩, 10, 2⟩] [2023] true).2.2.2.2.2.2.2.2 _ hmem⟩

/-! ## Claim C4 -/

theorem filterMap_cellOfMonth_keys_nodup (data : List DailyRecord) (y : ℕ) :
    ∀ ms : List ℕ, ms.Nodup →
      ((ms.filterMap (cellOfMonth data y)).map (fun c => (c.year, c.month))).Nodup := by
  intro ms
  induction ms with
  | nil => intro _; simp
  | cons m ms' ih =>
    intro hnd
    rw [List.nodup_cons] at hnd
    obtain ⟨hm, hnd'⟩ := hnd
    cases hc : cellOfMonth data y m with
    | none => simpa [List.filterMap_cons, hc] using ih hnd'
    | some c =>
      rw [List.filterMap_cons]
      simp only [hc]
      rw [List.map_cons, List.nodup_cons]
      refine ⟨?_, ih hnd'⟩
      intro hmem
      obtain ⟨c', hc', hkey⟩ := List.mem_map.mp hmem
      obtain ⟨m', hm', hsome'⟩ := List.mem_filterMap.mp hc'
      obtain ⟨hy1, hm1, _, _⟩ := cellOfMonth_some hsome'
      obtain ⟨hy0, hm0, _, _⟩ := cellOfMonth_some hc
      have hmm : m' = m := by
        have h1 : c'.month = c.month := congrArg Prod.snd hkey
        rw [hm1, hm0] at h1
        exact h1
      exact hm (hmm ▸ hm')

theorem buildCells_keys_nodup (data : List DailyRecord) :
    ∀ years : List ℕ, years.Nodup →
      ((buildCells data years).map (fun c => (c.year, c.month))).Nodup := by
  intro years
  induction years with
  | nil => intro _; simp [buildCells]
  | cons y ys ih =>
    intro hnd
    rw [List.nodup_cons] at hnd
    obtain ⟨hy, hnd'⟩ := hnd
    show ((((y :: ys).flatMap
      (fun year => (List.range MONTHS_COUNT).filterMap (cellOfMonth data year)))).map
        (fun c => (c.year, c.month))).Nodup
    rw [List.flatMap_cons, List.map_append, List.nodup_append]
    refine ⟨filterMap_cellOfMonth_keys_nodup data y _ (List.nodup_range MONTHS_COUNT),
      ih hnd', ?_⟩
    intro p hp1 hp2
    obtain ⟨c1, hc1, hk1⟩ := List.mem_map.mp hp1
    obtain ⟨c2, hc2, hk2⟩ := List.mem_map.mp hp2
    obtain ⟨_, _, hsome⟩ := List.mem_filterMap.mp hc1
    have hy1 : c1.year = y := (cellOfMonth_some hsome).1
    have hy2 : c2.year ∈ ys := (mem_buildCells hc2).1
    have hyy : c2.year = c1.year := by
      have := congrArg Prod.fst (hk2.trans hk1.symm)
      exact this
    rw [hyy, hy1] at hy2
    exact hy hy2

theorem filter_key_singleton :
    ∀ l : List Cell, ((l.map (fun c => (c.year, c.month))).Nodup) →
      ∀ c ∈ l, l.filter (fun x => x.year == c.year && x.month == c.month) = [c] := by
  intro l
  induction l with
  | nil => intro _ c hc; cases hc
  | cons a xs ih =>
    intro hnd c hc
    rw [List.map_cons, List.nodup_cons] at hnd
    obtain ⟨hka, hnd'⟩ := hnd
    rcases List.mem_cons.mp hc with rfl | hcx
    · rw [List.filter_cons]
      have hcond : (c.year == c.year && c.month == c.month) = true := by simp
      rw [if_pos hcond]
      have hnil : xs.filter (fun x => x.year == c.year && x.month == c.month) = [] := by
        rw [List.filter_eq_nil_iff]
        intro x hx hcond'
        simp only [Bool.and_eq_true, beq_iff_eq] at hcond'
        exact hka (List.mem_map.mpr ⟨x, hx, by rw [hcond'.1, hcond'.2]⟩)
      rw [hnil]
    · rw [List.filter_cons]
      have hcond : ¬((a.year == c.year && a.month == c.month) = true) := by
        intro hcond
        simp only [Bool.and_eq_true, beq_iff_eq] at hcond
        exact hka (List.mem_map.mpr ⟨c, hcx, by rw [hcond.1, hcond.2]⟩)
      rw [if_neg hcond]
      exact ih hnd' c hcx

/-- **C4.** With distinct years (as `loadData` produces), the grid renderer
emits exactly one cell per existing MonthSummary: filtering the rendered
output by that summary's (year, month) yields exactly the one rect, placed
at `(xScale(year), yScale(month))`, sized
`xScale.bandwidth() × yScale.bandwidth()` and filled with the colour scale
applied to `monthlyMax` when `showMax` is set, else `monthlyMin`; and the
scales are band scales with domain the year list (resp. months `0..11`),
range `[0, CELL_WIDTH · yearCount]` (resp. `[0, CELL_HEIGHT · 12]`) and
padding `0.05`. -/
theorem drawCells_one_cell_per_summary (data : List DailyRecord)
    (years : List ℕ) (showMax : Bool) (hnd : years.Nodup) :
    (∀ c ∈ buildCells data years,
      (mainDrawCells data years showMax).filter
          (fun r => r.datum.year == c.year && r.datum.month == c.month) =
        [{ datum := c
           x := (drawAxes years).xScale.pos c.year
           y := (drawAxes years).yScale.pos c.month
           w := (drawAxes years).xScale.bandwidth
           h := (drawAxes years).yScale.bandwidth
           fill := ((if showMax then c.monthlyMax else c.monthlyMin).map buildColourScale) }]) ∧
    (drawAxes years).xScale.domain = years ∧
    (drawAxes years).xScale.r0 = 0 ∧
    (drawAxes years).xScale.r1 = CELL_WIDTH * (years.length : ℚ) ∧
    (drawAxes years).xScale.paddingInner = 5/100 ∧
    (drawAxes years).xScale.paddingOuter = 5/100 ∧
    (drawAxes years).yScale.domain = List.range 12 ∧
    (drawAxes years).yScale.r0 = 0 ∧
    (drawAxes years).yScale.r1 = CELL_HEIGHT * (MONTHS_COUNT : ℚ) ∧
    (drawAxes years).yScale.paddingInner = 5/100 ∧
    (drawAxes years).yScale.paddingOuter = 5/100 := by
  refine ⟨?_, rfl, rfl, rfl, rfl, rfl, rfl, rfl, rfl, rfl, rfl⟩
  intro c hc
  show ((buildCells data years).map
      (renderCell (drawAxes years).xScale (drawAxes years).yScale
        buildColourScale showMax)).filter
      (fun r => r.datum.year == c.year && r.datum.month == c.month) = _
  rw [List.filter_map]
  have hpred : ((fun r : RenderedCell =>
      r.datum.year == c.year && r.datum.month == c.month) ∘
        (renderCell (drawAxes years).xScale (drawAxes years).yScale
          buildColourScale showMax)) =
      (fun x : Cell => x.year == c.year && x.month == c.month) := rfl
  rw [hpred,
    filter_key_singleton (buildCells data years)
      (buildCells_keys_nodup data years hnd) c hc]
  rfl

/-- Witness for C4 on the one-record dataset with a single (distinct) year. -/
theorem drawCells_one_cell_per_summary_witness :
    ([(2023 : ℕ)].Nodup ∧
      (⟨2023, 0, some 10, some 2, [⟨⟨2023, 0, 1⟩, 10, 2⟩]⟩ : Cell) ∈
        buildCells [⟨⟨2023, 0, 1⟩, 10, 2⟩] [2023]) ∧
    (mainDrawCells [⟨⟨2023, 0, 1⟩, 10, 2⟩] [2023] true).filter
        (fun r => r.datum.year == (2023 : ℕ) && r.datum.month == (0 : ℕ)) =
      [{ datum := ⟨2023, 0, some 10, some 2, [⟨⟨2023, 0, 1⟩, 10, 2⟩]⟩
         x := (drawAxes [2023]).xScale.pos 2023
         y := (drawAxes [2023]).yScale.pos 0
         w := (drawAxes [2023]).xScale.bandwidth
         h := (drawAxes [2023]).yScale.bandwidth
         fill := ((if true then some (10 : ℚ) else some (2 : ℚ)).map buildColourScale) }] := by
  have hmem : (⟨2023, 0, some 10, some 2, [⟨⟨2023, 0, 1⟩, 10, 2⟩]⟩ : Cell) ∈
      buildCells [⟨⟨2023, 0, 1⟩, 10, 2⟩] [2023] := by decide
  exact ⟨⟨by decide, hmem⟩,
    (drawCells_one_cell_per_summary [⟨⟨2023, 0, 1⟩, 10, 2⟩] [2023] true
      (by decide)).1 _ hmem⟩
